import Mathlib

/-!
Verification of the biz-agent slot-filling dialogue engine.

Each definition in this file is a shallow embedding of a function of the
Python source (file and function named in its doc comment).  Python dicts
with string keys are modelled as association lists with unique keys
(`List (String × _)`, first binding wins, as in `List.lookup`); `None` is
`Option.none`; regular-expression scans are modelled by hand-written
scanners whose semantics are derived from the concrete pattern, documented
at the definition.  Inputs are assumed ASCII where Python's `str` methods
are Unicode-aware (all catalogue values and test inputs in the repository
are ASCII).
-/

namespace BizAgent

/-! ## Python string primitives -/

/-- Python `str.isspace` characters relevant to `str.strip()` (space, tab,
newline, carriage return, vertical tab, form feed). -/
def pyIsSpace (c : Char) : Bool :=
  c = ' ' || c = '\t' || c = '\n' || c = '\r' || c = '\x0b' || c = '\x0c'

/-- Python `str.strip()` with no argument: drop leading and trailing
whitespace. -/
def pyStrip (s : String) : String :=
  String.mk (((s.data.dropWhile pyIsSpace).reverse.dropWhile pyIsSpace).reverse)

/-- A Python string is truthy iff non-empty; `e.strip()` used as a filter
condition is truthy iff the stripped string is non-empty. -/
def pyTruthy (s : String) : Bool := s ≠ ""

/-- `c in s` for a single-character needle (Python substring containment of
one char). -/
def containsChar (s : String) (c : Char) : Bool := s.data.any (fun d => d = c)

/-- Worker for `pySplitChar`: cut the character list at every occurrence of
the separator (Python `str.split(sep)` with a one-character separator:
every occurrence splits, empty pieces are kept). -/
def splitCharGo (sep : Char) : List Char → List Char → List (List Char)
  | acc, [] => [acc.reverse]
  | acc, c :: cs =>
    if c = sep then acc.reverse :: splitCharGo sep [] cs
    else splitCharGo sep (c :: acc) cs

/-- Python `s.split(sep)` for a one-character separator. -/
def pySplitChar (sep : Char) (s : String) : List String :=
  (splitCharGo sep [] s.data).map String.mk

/-- Does the string start with the given character (`s.startswith(c)`). -/
def headIs (c : Char) (s : String) : Bool :=
  match s.data with
  | [] => false
  | d :: _ => d = c

/-- Does the string end with the given character (`s.endswith(c)`). -/
def lastIs (c : Char) (s : String) : Bool :=
  match s.data.reverse with
  | [] => false
  | d :: _ => d = c

/-- Python `a[1:-1]`: drop the first and last character. -/
def dropEnds (s : String) : String := String.mk ((s.data.drop 1).dropLast)

/-! ## C3 — slot-state merge (`app/api.py`) -/

/-- Embeds `app/api.py::_list_or_none`.  In the call sites relevant here the
values already are `None` or lists, on which the Python helper is the
identity; the scalar-wrapping branch is unreachable for typed
`Optional[List[str]]` values. -/
def _list_or_none (v : Option (List String)) : Option (List String) := v

/-- A Python dict with string keys, modelled as an association list whose
keys are unique (as dict keys are).  Python dict insertion order is the list
order. -/
abbrev PyDict (V : Type) := List (String × V)

/-- Keys of a dict, in insertion order. -/
def dictKeys {V : Type} (d : PyDict V) : List String := d.map Prod.fst

/-- `d.get(k)`: first binding of the key, if any. -/
def dictGet {V : Type} (d : PyDict V) (k : String) : Option V :=
  match d with
  | [] => none
  | p :: rest => if p.1 = k then some p.2 else dictGet rest k

/-- `d[k] = v` on a dict: replace the binding if the key is present
(keeping its position, as Python does), else append a new binding. -/
def dictSet {V : Type} (d : PyDict V) (k : String) (v : V) : PyDict V :=
  if (dictGet d k).isSome then
    d.map (fun p => if p.1 = k then (k, v) else p)
  else
    d ++ [(k, v)]

/-- `d.setdefault(k, v)`: insert only if the key is absent. -/
def dictSetdefault {V : Type} (d : PyDict V) (k : String) (v : V) : PyDict V :=
  if (dictGet d k).isSome then d else d ++ [(k, v)]

/-- Embeds `app/api.py::_merge_required_fields`: start from a copy of `old`;
for each binding of `new`, overwrite when the new value is a non-empty
list, otherwise `setdefault` the key to `None`. -/
def _merge_required_fields (old new : PyDict (Option (List String))) :
    PyDict (Option (List String)) :=
  new.foldl
    (fun out kv =>
      match _list_or_none kv.2 with
      | some vv => if vv.length > 0 then dictSet out kv.1 (some vv)
                   else dictSetdefault out kv.1 none
      | none => dictSetdefault out kv.1 none)
    old

theorem dictGet_map_if {V : Type} (d : PyDict V) (k k' : String) (v : V)
    (h : k' ≠ k) :
    dictGet (d.map (fun p => if p.1 = k then (k, v) else p)) k' = dictGet d k' := by
  induction d with
  | nil => rfl
  | cons p d ih =>
    simp only [List.map_cons, dictGet]
    by_cases hp : p.1 = k
    · rw [if_pos hp]
      rw [if_neg (fun hh => h hh.symm), if_neg (fun hh => h (hp ▸ hh).symm)]
      exact ih
    · rw [if_neg hp]
      by_cases hk' : p.1 = k'
      · rw [if_pos hk', if_pos hk']
      · rw [if_neg hk', if_neg hk']
        exact ih

theorem dictGet_append_single {V : Type} (d : PyDict V) (k k' : String) (v : V)
    (h : (dictGet d k').isSome ∨ k' ≠ k) :
    dictGet (d ++ [(k, v)]) k' = dictGet d k' := by
  induction d with
  | nil =>
    rcases h with h | h
    · exact Bool.noConfusion (show false = true from h)
    · simp only [List.nil_append, dictGet]
      rw [if_neg (fun hh => h hh.symm)]
  | cons p d ih =>
    simp only [List.cons_append, dictGet]
    by_cases hk' : p.1 = k'
    · rw [if_pos hk', if_pos hk']
    · rw [if_neg hk', if_neg hk']
      apply ih
      rcases h with h | h
      · left
        simp only [dictGet, if_neg hk'] at h
        exact h
      · right; exact h

theorem dictGet_dictSet_ne {V : Type} (d : PyDict V) (k k' : String) (v : V)
    (h : k' ≠ k) : dictGet (dictSet d k v) k' = dictGet d k' := by
  unfold dictSet
  split
  · exact dictGet_map_if d k k' v h
  · exact dictGet_append_single d k k' v (Or.inr h)

theorem dictGet_dictSetdefault_mem {V : Type} (d : PyDict V) (k k' : String)
    (v : V) (h : (dictGet d k').isSome) :
    dictGet (dictSetdefault d k v) k' = dictGet d k' := by
  unfold dictSetdefault
  split
  · rfl
  · exact dictGet_append_single d k k' v (Or.inl h)

/-- One step of the merge fold never erases an existing binding unless it is
an overwrite of key `kv.1` with a non-empty list. -/
theorem merge_step_preserves {V : List String}
    (out : PyDict (Option (List String))) (kv : String × Option (List String))
    (f : String)
    (hf : dictGet out f = some (some V))
    (hkv : kv.1 = f → kv.2 = none ∨ kv.2 = some []) :
    dictGet
      (match _list_or_none kv.2 with
        | some vv => if vv.length > 0 then dictSet out kv.1 (some vv)
                     else dictSetdefault out kv.1 none
        | none => dictSetdefault out kv.1 none) f = some (some V) := by
  have hsome : (dictGet out f).isSome := by rw [hf]; rfl
  by_cases hk : kv.1 = f
  · rcases hkv hk with h2 | h2 <;> rw [h2] <;> simp only [_list_or_none]
    · rw [dictGet_dictSetdefault_mem _ _ _ _ hsome]
      exact hf
    · simp only [List.length_nil, gt_iff_lt, lt_irrefl, if_false]
      rw [dictGet_dictSetdefault_mem _ _ _ _ hsome]
      exact hf
  · cases h2 : _list_or_none kv.2 with
    | none =>
      rw [dictGet_dictSetdefault_mem _ _ _ _ hsome]
      exact hf
    | some vv =>
      by_cases hl : vv.length > 0
      · simp only [hl, if_true]
        rw [dictGet_dictSet_ne _ _ _ _ (fun hh => hk hh.symm)]
        exact hf
      · simp only [hl, if_false]
        rw [dictGet_dictSetdefault_mem _ _ _ _ hsome]
        exact hf

/-- If the dict's keys are unique, any binding's value agrees with the
dict lookup of its key. -/
theorem dictGet_of_mem_nodup {V : Type} (d : PyDict V) (p : String × V)
    (hnodup : (dictKeys d).Nodup) (hp : p ∈ d) :
    dictGet d p.1 = some p.2 := by
  induction d with
  | nil => cases hp
  | cons q d ih =>
    simp only [dictKeys, List.map_cons, List.nodup_cons] at hnodup
    rw [List.mem_cons] at hp
    rcases hp with hq | hp
    · subst hq
      simp [dictGet]
    · have hqf : q.1 ≠ p.1 := by
        intro hqf
        exact hnodup.1 (hqf ▸ (List.mem_map_of_mem Prod.fst hp))
      simp only [dictGet, if_neg hqf]
      exact ih hnodup.2 hp

/-- C3: merging a resolution that is null (`None`), an empty list, or absent
for a field over an already-resolved singleton value leaves the old value in
place.  Hypothesis `hnodup` reflects that Python dict keys are unique. -/
theorem merge_never_erases_resolved
    (old new : PyDict (Option (List String))) (f : String) (v : String)
    (hnodup : (dictKeys new).Nodup)
    (hold : dictGet old f = some (some [v]))
    (hnew : dictGet new f = some none ∨ dictGet new f = some (some []) ∨
            dictGet new f = none) :
    dictGet (_merge_required_fields old new) f = some (some [v]) := by
  unfold _merge_required_fields
  -- every binding of `new` at key `f` carries a null/empty value
  have hval : ∀ p ∈ new, p.1 = f → p.2 = none ∨ p.2 = some [] := by
    intro p hp hpf
    have hlk : dictGet new f = some p.2 := hpf ▸ dictGet_of_mem_nodup new p hnodup hp
    rcases hnew with h | h | h
    · left; rw [hlk] at h; exact (Option.some.inj h)
    · right; rw [hlk] at h; exact (Option.some.inj h)
    · rw [hlk] at h; cases h
  clear hnew hnodup
  induction new generalizing old with
  | nil => simpa using hold
  | cons kv new ih =>
    simp only [List.foldl_cons]
    exact ih _
      (merge_step_preserves old kv f hold
        (fun hk => hval kv (List.mem_cons_self kv new) hk))
      (fun p hp hpf => hval p (List.mem_cons_of_mem kv hp) hpf)

/-- Witness for C3 at a concrete merge: old `{name: ["X"]}`, new turn
resolution `{name: None, country: []}`. -/
theorem merge_never_erases_resolved_witness :
    dictGet (_merge_required_fields [("name", some ["X"])]
        [("name", none), ("country", some [])]) "name" = some (some ["X"]) :=
  merge_never_erases_resolved [("name", some ["X"])]
    [("name", none), ("country", some [])] "name" "X"
    (by decide) (by decide) (by decide)

/-! ## C6 — requirement-grammar parsing
(`app/agents/field_validator_v1.py::_parse_branch`,
`app/api.py::_trailing_from_rule`) -/

/-- The comma-list body shared by the parenthesised and bare comma branches:
`[x.strip() for x in body.split(",") if x.strip()]`. -/
def commaFields (body : String) : List String :=
  ((pySplitChar ',' body).map pyStrip).filter (fun x => pyTruthy x)

/-- Embeds `field_validator_v1.py::_parse_branch`: a `|`-separated list of
alternatives; each alternative is a parenthesised comma group, a bare comma
group, or a single field; without `|` the whole expression is one branch of
the same three shapes. -/
def _parse_branch (expr0 : String) : List (List String) :=
  let expr := pyStrip expr0
  if containsChar expr '|' then
    (pySplitChar '|' expr).map (fun a0 =>
      let a := pyStrip (pyStrip a0)
      if headIs '(' a && lastIs ')' a then commaFields (dropEnds a)
      else if containsChar a ',' then commaFields a
      else [a])
  else
    if headIs '(' expr && lastIs ')' expr then [commaFields (dropEnds expr)]
    else if containsChar expr ',' then [commaFields expr]
    else [[expr]]

/-- Embeds `app/api.py::_trailing_from_rule` (the same computation appears
inline in `field_validator_v1`): requirement-list entries after the first,
stripped, with empty entries dropped. -/
def _trailing_from_rule (req_expr : List String) : List String :=
  ((req_expr.drop 1).filter (fun e => pyTruthy (pyStrip e))).map pyStrip

/-- C6: the requirement grammar maps `"name | (workload,incentive_type)"` to
the two branches `[{name}, {workload,incentive_type}]` in declaration order,
a parenthesised comma list such as `"(a,b)"` to the single branch `{a,b}`, a
bare token to a singleton branch, and the trailing fields are the
requirement-list entries beyond the first, in given order, with empty
entries dropped. -/
theorem parse_branch_grammar :
    _parse_branch "name | (workload,incentive_type)" =
      [["name"], ["workload", "incentive_type"]] ∧
    _parse_branch "(a,b)" = [["a", "b"]] ∧
    _parse_branch "acv" = [["acv"]] ∧
    _trailing_from_rule ["name | (workload,incentive_type)", "country", " acv ", ""] =
      ["country", "acv"] := by
  decide

/-! ## C2 — branch selection
(`app/agents/field_validator_v1.py::field_validator_v1`, step 3) -/

/-- `set(b) == {"workload", "incentive_type"} and len(b) == 2`: with length
2, set equality holds iff both values occur. -/
def isWkIncPair (b : List String) : Bool :=
  b.length = 2 && b.contains "workload" && b.contains "incentive_type"

/-- Embeds step 3 of `field_validator_v1` (branch choice).  `nameVal`,
`workloadVal`, `incType` carry the values the current message resolved
(`None` when unresolved); the code only tests their truthiness.
`branches.headD []` stands for `branches[0]`; `_parse_branch` always
returns a non-empty list, so the default is never taken in context. -/
def pick_branch (branches : List (List String))
    (nameVal workloadVal incType : Option String) : List String :=
  let hasNameBranch := branches.any (fun b => b = ["name"])
  let hasWkIncBranch := branches.any isWkIncPair
  if hasNameBranch && hasWkIncBranch then
    if nameVal.isSome then ["name"]
    else if workloadVal.isSome && incType.isSome then ["workload", "incentive_type"]
    else ["workload", "incentive_type"]
  else
    if hasNameBranch && nameVal.isSome then ["name"]
    else if hasWkIncBranch && (workloadVal.isSome && incType.isSome) then
      ["workload", "incentive_type"]
    else branches.headD []

/-- The branch-selection policy exactly as the claim states it, rules 1-4 in
priority order; written from the claim's words for comparison with
`pick_branch`.  Rule 3 fires only when the message resolves *neither*
workload nor incentive_type. -/
def pick_branch_claim (branches : List (List String))
    (nameVal workloadVal incType : Option String) : List String :=
  let hasNameBranch := branches.any (fun b => b = ["name"])
  let hasWkIncBranch := branches.any isWkIncPair
  if hasNameBranch && nameVal.isSome then ["name"]
  else if hasWkIncBranch && (workloadVal.isSome && incType.isSome) then
    ["workload", "incentive_type"]
  else if hasWkIncBranch && (!workloadVal.isSome && !incType.isSome) then
    ["workload", "incentive_type"]
  else branches.headD []

/-- C2 counterexample: with branches `[{name}, {workload,incentive_type}]`
and a message resolving only workload (neither rule 2 nor rule 3 of the
claim applies), the claim's rule 4 picks the first declared branch `{name}`,
but the code picks the pair. -/
theorem pick_branch_claim_counterexample :
    pick_branch [["name"], ["workload", "incentive_type"]]
        none (some "Dynamics 365 Finance") none = ["workload", "incentive_type"] ∧
    pick_branch_claim [["name"], ["workload", "incentive_type"]]
        none (some "Dynamics 365 Finance") none = ["name"] ∧
    pick_branch [["name"], ["workload", "incentive_type"]]
        none (some "Dynamics 365 Finance") none ≠
      pick_branch_claim [["name"], ["workload", "incentive_type"]]
        none (some "Dynamics 365 Finance") none := by
  decide

/-- The amended policy: when both the `{name}` branch and the
`{workload,incentive_type}` pair branch are declared, `{name}` is picked iff
the message resolves name, and the pair is the default in every other case
(even when only one of workload/incentive_type resolves); when the two do
not coexist, `{name}` is picked if declared and name resolves, else the pair
if declared and both its fields resolve, else the first declared branch. -/
def pick_branch_amended (branches : List (List String))
    (nameVal workloadVal incType : Option String) : List String :=
  let hasNameBranch := branches.any (fun b => b = ["name"])
  let hasWkIncBranch := branches.any isWkIncPair
  if hasNameBranch && hasWkIncBranch then
    if nameVal.isSome then ["name"] else ["workload", "incentive_type"]
  else if hasNameBranch && nameVal.isSome then ["name"]
  else if hasWkIncBranch && (workloadVal.isSome && incType.isSome) then
    ["workload", "incentive_type"]
  else branches.headD []

/-- C2 amended: branch selection is the deterministic function
`pick_branch_amended` of the parsed branches and the truthiness of the three
resolved fields — identical inputs always yield the identical branch, and
the priority order is the amended one described at `pick_branch_amended`. -/
theorem pick_branch_deterministic_policy :
    ∀ (branches : List (List String)) (nameVal workloadVal incType : Option String),
      pick_branch branches nameVal workloadVal incType =
        pick_branch_amended branches nameVal workloadVal incType := by
  intro branches n w i
  unfold pick_branch pick_branch_amended
  cases hn : branches.any (fun b => b = ["name"]) <;>
    cases hw : branches.any isWkIncPair <;>
    cases hnv : n.isSome <;> cases hwv : w.isSome <;> cases hiv : i.isSome <;>
    simp [hn, hw, hnv, hwv, hiv]

/-! ## C1 — catalog-fuzzy confidence bands
(`app/agents/field_value_resolver.py::_resolve_workload`,
`app/agents/field_validator_v1.py::_resolve_with_syns_and_fuzzy`).
Candidates are `(value, score)` pairs; the synonym/rapidfuzz scorers that
produce the raw hit lists are external, so the hit lists are inputs here. -/

/-- Stable insertion for a descending sort by score: an earlier element goes
before later elements of equal score, as Python's stable
`sorted(pairs, key=score, reverse=True)` does. -/
def insertScoreDesc (x : String × Int) : List (String × Int) → List (String × Int)
  | [] => [x]
  | y :: ys => if x.2 ≥ y.2 then x :: y :: ys else y :: insertScoreDesc x ys

/-- Stable descending sort by score (insertion sort). -/
def sortScoreDesc : List (String × Int) → List (String × Int)
  | [] => []
  | x :: xs => insertScoreDesc x (sortScoreDesc xs)

/-- Drop every pair whose value was already seen, keeping first (highest
scored, since the input is sorted descending) occurrences. -/
def dedupKeepFirst (seen : List String) : List (String × Int) → List (String × Int)
  | [] => []
  | p :: ps =>
    if seen.contains p.1 then dedupKeepFirst seen ps
    else p :: dedupKeepFirst (p.1 :: seen) ps

/-- Embeds `_rank_unique` (field_value_resolver) / `_rank_and_unique`
(field_validator_v1): sort descending by score, deduplicate by value keeping
the maximum score, keep the first `top`. -/
def _rank_unique (pairs : List (String × Int)) (top : Nat) : List (String × Int) :=
  (dedupKeepFirst [] (sortScoreDesc pairs)).take top

/-- Embeds the decision bands of `field_value_resolver.py::_resolve_workload`
on the ranked candidate list: (1) top score ≥ 90 auto-selects; (2) otherwise
≥ 2 near-ties within 5 points of the top (the top counts itself) or ≥ 3
candidates scoring ≥ 80 yields no value with the top-5 candidates; (3)
otherwise top ≥ 80 selects; (4) otherwise no value with the top-5. -/
def workloadDecision (cands : List (String × Int)) :
    Option String × List (String × Int) :=
  match cands with
  | [] => (none, [])
  | top :: rest =>
    if top.2 ≥ 90 then (some top.1, top :: rest)
    else
      let nearTies := (top :: rest).filter (fun c => top.2 - c.2 ≤ 5)
      let overEighty := (top :: rest).filter (fun c => c.2 ≥ 80)
      if nearTies.length ≥ 2 ∨ overEighty.length ≥ 3 then (none, (top :: rest).take 5)
      else if top.2 ≥ 80 then (some top.1, top :: rest)
      else (none, (top :: rest).take 5)

/-- Embeds `field_value_resolver.py::_resolve_workload`: merge synonym and
fuzzy hits, rank to the top 8, then apply the decision bands. -/
def _resolve_workload (synHits fuzzyHits : List (String × Int)) :
    Option String × List (String × Int) :=
  workloadDecision (_rank_unique (synHits ++ fuzzyHits) 8)

/-- Embeds `field_validator_v1.py::_resolve_with_syns_and_fuzzy`: rank to the
top 5 and accept the top candidate iff its score reaches the per-field
threshold — no ambiguity guard at all. -/
def _resolve_with_syns_and_fuzzy (synHits fuzzyHits : List (String × Int))
    (accept_if_score_ge : Int) : Option String × List (String × Int) :=
  let cands := _rank_unique (synHits ++ fuzzyHits) 5
  match cands with
  | [] => (none, [])
  | top :: rest =>
    (if top.2 ≥ accept_if_score_ge then some top.1 else none, top :: rest)

/-- C1 counterexample: the candidate list `[(X,92),(Y,91)]` — a near tie
above the high band — resolves to `X`, not to null: the ≥ 90 auto-select
runs before the ambiguity guard.  The same happens through the full hit
pipeline, and `field_validator_v1`'s combined resolver (threshold 90, no
guard) also accepts `X`. -/
theorem near_tie_above_high_counterexample :
    workloadDecision [("X", 92), ("Y", 91)] = (some "X", [("X", 92), ("Y", 91)]) ∧
    _resolve_workload [("X", 92)] [("Y", 91)] = (some "X", [("X", 92), ("Y", 91)]) ∧
    (_resolve_with_syns_and_fuzzy [("X", 92)] [("Y", 91)] 90).1 = some "X" := by
  decide

/-- C1 amended: the near-tie ambiguity guard applies only below the
high-confidence band: when the top score is < 90 and at least two candidates
(the top included) lie within 5 points of it, the resolver returns null;
when the top score is ≥ 90 the top candidate is auto-selected even in a near
tie. -/
theorem near_tie_guard_only_below_high :
    (∀ (cands : List (String × Int)) (top : String × Int),
      cands.head? = some top → top.2 < 90 →
      2 ≤ (cands.filter (fun c => top.2 - c.2 ≤ 5)).length →
      (workloadDecision cands).1 = none) ∧
    (∀ (cands : List (String × Int)) (top : String × Int),
      cands.head? = some top → 90 ≤ top.2 →
      (workloadDecision cands).1 = some top.1) := by
  constructor
  · intro cands top h1 h2 h3
    cases cands with
    | nil => cases h1
    | cons t rest =>
      have ht : t = top := Option.some.inj h1
      subst ht
      simp only [workloadDecision]
      rw [if_neg (not_le.mpr h2), if_pos (Or.inl h3)]
  · intro cands top h1 h2
    cases cands with
    | nil => cases h1
    | cons t rest =>
      have ht : t = top := Option.some.inj h1
      subst ht
      simp only [workloadDecision]
      rw [if_pos h2]

/-- Witness for C1 amended at concrete candidate lists: a near tie in the
medium band is ambiguous, a near tie above the high band auto-selects. -/
theorem near_tie_guard_only_below_high_witness :
    (workloadDecision [("X", 89), ("Y", 86)]).1 = none ∧
    (workloadDecision [("X", 92), ("Y", 91)]).1 = some "X" :=
  ⟨near_tie_guard_only_below_high.1 [("X", 89), ("Y", 86)] ("X", 89)
      rfl (by decide) (by decide),
   near_tie_guard_only_below_high.2 [("X", 92), ("Y", 91)] ("X", 92)
      rfl (by decide)⟩

/-! ## C5 — turn response construction (`app/api.py::_make_api_response`) -/

/-- The follow-up object stored at `s["followup"]`. -/
structure FollowupObj where
  question : Option String
  field_name : Option String
  options : Option (List String)
deriving DecidableEq

/-- The final-answer object stored at `s["final_answer"]`
(`generate_final_answer` output: answer text and recommendations). -/
structure FinalAnswerObj where
  answer_text : Option String
  recommendations : List String
deriving DecidableEq

/-- The slice of the session `_make_api_response` reads. -/
structure SessionView where
  session_id : Option String
  followup : Option FollowupObj
  final_answer : Option FinalAnswerObj
deriving DecidableEq

/-- The FE payload `_make_api_response` builds; absent dict keys are `none`. -/
structure ApiResponse where
  session_id : Option String
  response_type : String
  followup : Option (String × String)
  text : Option String
  recommendations : Option (List String)
deriving DecidableEq

/-- `fu.get("question")` with `fu = s.get("followup") or {}`. -/
def fuQuestion (s : SessionView) : Option String :=
  match s.followup with
  | some f => f.question
  | none => none

/-- `fu.get("field_name")` with `fu = s.get("followup") or {}`. -/
def fuField (s : SessionView) : Option String :=
  match s.followup with
  | some f => f.field_name
  | none => none

/-- `final.get("answer_text")` with `final = s.get("final_answer") or {}`. -/
def finalText (s : SessionView) : Option String :=
  match s.final_answer with
  | some f => f.answer_text
  | none => none

/-- `final.get("recommendations") or []`. -/
def finalRecs (s : SessionView) : List String :=
  match s.final_answer with
  | some f => f.recommendations
  | none => []

/-- The first branch guard of `_make_api_response`:
`fu and fu.get("question") and fu.get("field_name")` (a stored followup
object is a non-empty dict, hence truthy). -/
def validFollowup (s : SessionView) : Bool :=
  s.followup.isSome && pyTruthy ((fuQuestion s).getD "") &&
    pyTruthy ((fuField s).getD "")

/-- The second branch guard of `_make_api_response`: `text or recs`. -/
def truthyFinal (s : SessionView) : Bool :=
  pyTruthy ((finalText s).getD "") || finalRecs s ≠ []

/-- Embeds `app/api.py::_make_api_response`: a valid followup wins and
returns a `follow_up` payload; else a truthy final answer returns a
`final_answer` payload with whichever of text/recommendations is truthy;
else the fallback returns `follow_up` with nothing populated. -/
def _make_api_response (s : SessionView) : ApiResponse :=
  if validFollowup s then
    { session_id := s.session_id, response_type := "follow_up",
      followup := some ((fuQuestion s).getD "", (fuField s).getD ""),
      text := none, recommendations := none }
  else if truthyFinal s then
    { session_id := s.session_id, response_type := "final_answer",
      followup := none,
      text := if pyTruthy ((finalText s).getD "") then finalText s else none,
      recommendations := if finalRecs s ≠ [] then some (finalRecs s) else none }
  else
    { session_id := s.session_id, response_type := "follow_up",
      followup := none, text := none, recommendations := none }

/-- C5 counterexample: a session with no followup and no final answer (for
example a fresh session on a follow-up turn that names no field) populates
*neither* alternative — refuting "never neither". -/
theorem make_api_response_neither_counterexample :
    (_make_api_response ⟨some "sid", none, none⟩).followup = none ∧
    (_make_api_response ⟨some "sid", none, none⟩).text = none ∧
    (_make_api_response ⟨some "sid", none, none⟩).recommendations = none ∧
    (_make_api_response ⟨some "sid", none, none⟩).response_type = "follow_up" := by
  decide

/-- C5 amended: the response never populates both alternatives; it populates
the followup alone when the session holds a valid followup, the
text/recommendations payload alone when it holds none but a truthy final
answer, and neither (fallback, `response_type = "follow_up"`) when the
session has neither. -/
theorem make_api_response_exactly_one (s : SessionView) :
    (¬ ((_make_api_response s).followup.isSome ∧
        ((_make_api_response s).text.isSome ∨
         (_make_api_response s).recommendations.isSome))) ∧
    (validFollowup s = true →
      (_make_api_response s).followup.isSome ∧
      (_make_api_response s).text = none ∧
      (_make_api_response s).recommendations = none) ∧
    (validFollowup s = false → truthyFinal s = true →
      (_make_api_response s).followup = none ∧
      ((_make_api_response s).text.isSome ∨
       (_make_api_response s).recommendations.isSome)) ∧
    (validFollowup s = false → truthyFinal s = false →
      (_make_api_response s).followup = none ∧
      (_make_api_response s).text = none ∧
      (_make_api_response s).recommendations = none ∧
      (_make_api_response s).response_type = "follow_up") := by
  cases hv : validFollowup s <;> cases ht : truthyFinal s <;>
    simp only [_make_api_response, hv, ht, Bool.false_eq_true, if_true, if_false,
      Option.isSome_some, Option.isSome_none, Bool.true_eq_false] <;>
    refine ⟨?_, ?_, ?_, ?_⟩ <;>
    try simp
  · -- validFollowup false, truthyFinal true: some payload is populated
    unfold truthyFinal at ht
    rcases Bool.or_eq_true_iff.mp ht with h | h
    · left
      rw [if_pos h]
      cases ho : finalText s with
      | none => rw [ho] at h; exact absurd h (by decide)
      | some t => rfl
    · right
      exact of_decide_eq_true h

/-- Witness for C5 amended at concrete sessions: a session holding both a
valid followup and a stale final answer populates only the followup; a
session holding only a final answer populates only the final payload. -/
theorem make_api_response_exactly_one_witness :
    ((_make_api_response ⟨some "s1",
        some ⟨some "Which country?", some "country", none⟩,
        some ⟨some "stale answer", []⟩⟩).followup.isSome ∧
      (_make_api_response ⟨some "s1",
        some ⟨some "Which country?", some "country", none⟩,
        some ⟨some "stale answer", []⟩⟩).text = none ∧
      (_make_api_response ⟨some "s1",
        some ⟨some "Which country?", some "country", none⟩,
        some ⟨some "stale answer", []⟩⟩).recommendations = none) ∧
    ((_make_api_response ⟨some "s2", none,
        some ⟨some "here you go", ["rec1"]⟩⟩).followup = none ∧
      ((_make_api_response ⟨some "s2", none,
        some ⟨some "here you go", ["rec1"]⟩⟩).text.isSome ∨
       (_make_api_response ⟨some "s2", none,
        some ⟨some "here you go", ["rec1"]⟩⟩).recommendations.isSome)) :=
  ⟨(make_api_response_exactly_one ⟨some "s1",
      some ⟨some "Which country?", some "country", none⟩,
      some ⟨some "stale answer", []⟩⟩).2.1 (by decide),
   (make_api_response_exactly_one ⟨some "s2", none,
      some ⟨some "here you go", ["rec1"]⟩⟩).2.2.1 (by decide) (by decide)⟩

/-! ## C9 — AskNextField session effect (`app/api.py::turn`, the
ask-next-missing-field tails of the text turn and the follow-up turn) -/

/-- The session slice the ask-next-field step reads and writes.  Messages
are `(role, text, field_name)` triples as stored by `add_message`. -/
structure TurnSession where
  required_fields : PyDict (Option (List String))
  picked_set : List String
  candidates : PyDict (List (String × Int))
  followup : Option FollowupObj
  final_answer : Option FinalAnswerObj
  messages : List (String × String × Option String)
deriving DecidableEq

/-- Embeds `app/api.py::_is_bad` applied to `rf.get(f)`: absent key, `None`,
or a list whose length is not 1. -/
def _is_bad (v : Option (Option (List String))) : Bool :=
  match v with
  | none => true
  | some none => true
  | some (some l) => l.length ≠ 1

/-- Embeds `app/api.py::_next_missing_field`: first bad field in
picked-set-then-trailing order, else first bad field among all tracked
required-field keys, else `None`. -/
def _next_missing_field (s : TurnSession) (req_expr : List String) : Option String :=
  let order := s.picked_set ++ _trailing_from_rule req_expr
  match order.find? (fun f => _is_bad (dictGet s.required_fields f)) with
  | some f => some f
  | none =>
    (dictKeys s.required_fields).find? (fun f => _is_bad (dictGet s.required_fields f))

/-- The `options` computed before asking: candidate values of the missing
field (truthy ones), or `None` when there are none (`opts or None`). -/
def askOptions (s : TurnSession) (missing : Option String) : Option (List String) :=
  match missing with
  | none => none
  | some m =>
    match dictGet s.candidates m with
    | none => none
    | some cs =>
      let opts := (cs.map Prod.fst).filter pyTruthy
      if opts ≠ [] then some opts else none

/-- Embeds the AskNextField tail of `app/api.py::turn` (lines asking the
next missing field; the external `generate_followup_question` result is the
input `q`): store `{"question": q, "field_name": missing, "options":
options}` in `s["followup"]` and append the assistant message.  No statement
of this tail touches `s["final_answer"]`. -/
def askNextField (s : TurnSession) (req_expr : List String) (q : String) : TurnSession :=
  let missing := _next_missing_field s req_expr
  { s with
    followup := some ⟨some q, missing, askOptions s missing⟩,
    messages := s.messages ++ [("assistant", q, missing)] }

/-- C9 counterexample: a session holding a previously stored final answer
still holds it after the turn ends by asking the next field — the
final-answer state is *not* cleared (the question is stored, though). -/
theorem askNextField_keeps_final_answer_counterexample :
    (askNextField
        ⟨[("name", some ["X"]), ("country", none)], ["name"], [], none,
          some ⟨some "old final answer", []⟩, []⟩
        ["name | (workload,incentive_type)", "country"]
        "Which country?").final_answer = some ⟨some "old final answer", []⟩ ∧
    (askNextField
        ⟨[("name", some ["X"]), ("country", none)], ["name"], [], none,
          some ⟨some "old final answer", []⟩, []⟩
        ["name | (workload,incentive_type)", "country"]
        "Which country?").final_answer ≠ none ∧
    (askNextField
        ⟨[("name", some ["X"]), ("country", none)], ["name"], [], none,
          some ⟨some "old final answer", []⟩, []⟩
        ["name | (workload,incentive_type)", "country"]
        "Which country?").followup =
      some ⟨some "Which country?", some "country", none⟩ := by
  decide

/-- C9 amended: ending a turn with AskNextField stores the generated
question in the session keyed by the field it targets, but leaves the
previously stored final-answer state untouched (it is never cleared), so a
stale final answer can coexist with the pending follow-up question in the
session; only the response rendering prefers the followup. -/
theorem askNextField_stores_question_keeps_final
    (s : TurnSession) (req_expr : List String) (q : String) :
    (askNextField s req_expr q).followup =
      some ⟨some q, _next_missing_field s req_expr,
            askOptions s (_next_missing_field s req_expr)⟩ ∧
    (askNextField s req_expr q).final_answer = s.final_answer := by
  exact ⟨rfl, rfl⟩

/-! ## C10 — catalog query filters (`app/agents/db_filter_service.py`) -/

/-- `required_fields.get(field)`: a dict access that collapses "key absent"
and "key bound to `None`" to `None`, as both feed `_listify` identically. -/
def getRF (rf : PyDict (Option (List String))) (f : String) : Option (List String) :=
  match dictGet rf f with
  | some v => v
  | none => none

/-- Embeds `db_filter_service.py::_listify` on `None`-or-list values (the
only values session `required_fields` hold; the scalar branch is
unreachable for them): non-empty list of stripped non-empty strings, else
`None`. -/
def _listify (v : Option (List String)) : Option (List String) :=
  match v with
  | none => none
  | some l =>
    let vals := (l.filter (fun x => pyTruthy (pyStrip x))).map pyStrip
    if vals ≠ [] then some vals else none

/-- `ALLOWED_FILTER_FIELDS` of `db_filter_service.py`. -/
def ALLOWED_FILTER_FIELDS : List String := ["name", "workload", "incentive_type"]

/-- `FIELD_TO_COLUMN` of `db_filter_service.py`, in dict insertion order. -/
def FIELD_TO_COLUMN : List (String × String) :=
  [("name", "name"), ("workload", "workload"), ("incentive_type", "incentive_type")]

/-- Python `sep.join(parts)`. -/
def joinSep (sep : String) : List String → String
  | [] => ""
  | [p] => p
  | p :: ps => p ++ sep ++ joinSep sep ps

/-- The substring clause built for workload:
`"(" + " OR ".join(["workload ILIKE %s"] * n) + ")"`. -/
def workloadClause (vals : List String) : String :=
  "(" ++ joinSep " OR " (vals.map (fun _ => "workload ILIKE %s")) ++ ")"

/-- The exact clause built for name / incentive_type:
`"LOWER(col) IN (LOWER(%s), ...)"`. -/
def exactClause (col : String) (vals : List String) : String :=
  "LOWER(" ++ col ++ ") IN (" ++ joinSep ", " (vals.map (fun _ => "LOWER(%s)")) ++ ")"

/-- One iteration of the `_prepare_filters` loop over `FIELD_TO_COLUMN`:
accumulate `(where_parts, params, applied)`. -/
def prepStep (rf : PyDict (Option (List String)))
    (acc : List String × List String × PyDict (List String)) (fc : String × String) :
    List String × List String × PyDict (List String) :=
  match _listify (getRF rf fc.1) with
  | none => acc
  | some vals =>
    if fc.1 = "workload" then
      (acc.1 ++ [workloadClause vals],
       acc.2.1 ++ vals.map (fun v => "%" ++ v ++ "%"),
       dictSet acc.2.2 fc.1 vals)
    else
      (acc.1 ++ [exactClause fc.2 vals],
       acc.2.1 ++ vals,
       dictSet acc.2.2 fc.1 vals)

/-- Embeds `db_filter_service.py::_prepare_filters`: the loop over the three
allowed fields, plus `skipped` = every key of `required_fields` outside
`ALLOWED_FILTER_FIELDS`. -/
def _prepare_filters (rf : PyDict (Option (List String))) :
    (List String × List String × PyDict (List String)) × List String :=
  (FIELD_TO_COLUMN.foldl (prepStep rf) ([], [], []),
   (dictKeys rf).filter (fun k => !(ALLOWED_FILTER_FIELDS.contains k)))

/-- Embeds `db_filter_service.py::_build_sql`. -/
def _build_sql (where_parts : List String) (order_by : Option String) : String :=
  let safe_order :=
    match order_by with
    | some o => if o = "name" ∨ o = "workload" ∨ o = "incentive_type" then o else "name"
    | none => "name"
  let sql := "SELECT * FROM incentives"
  let sql := if where_parts ≠ [] then sql ++ " WHERE " ++ joinSep " AND " where_parts else sql
  sql ++ " ORDER BY " ++ safe_order ++ " LIMIT %s OFFSET %s"

/-- Embeds `db_filter_service.py::filter_incentives` up to the external
`qall(sql, params)` call: the full query key handed to the database — SQL
text, string parameters, and the trailing numeric limit/offset parameters —
together with `skipped_fields`.  The returned rows are a function of the
query key alone. -/
def filter_incentives_query (rf : PyDict (Option (List String)))
    (limit offset : Int) (order_by : Option String) :
    String × List String × Int × Int × List String :=
  let prep := _prepare_filters rf
  (_build_sql prep.1.1 order_by, prep.1.2.1, limit, offset, prep.2)

set_option maxRecDepth 8000 in
/-- C10: the query key depends only on the name, workload and incentive_type
entries of the resolved-fields map (changing any other field never changes
the SQL or its parameters); every other present key is reported in
`skipped_fields`; and the generated WHERE clause has the claimed shape —
case-insensitive exact `IN` for name/incentive_type, `ILIKE` substring for
workload, OR within a field, AND across fields. -/
theorem filter_query_allowed_fields_only :
    (∀ (rf1 rf2 : PyDict (Option (List String))) (limit offset : Int)
        (order_by : Option String),
      getRF rf1 "name" = getRF rf2 "name" →
      getRF rf1 "workload" = getRF rf2 "workload" →
      getRF rf1 "incentive_type" = getRF rf2 "incentive_type" →
      (filter_incentives_query rf1 limit offset order_by).1 =
        (filter_incentives_query rf2 limit offset order_by).1 ∧
      (filter_incentives_query rf1 limit offset order_by).2.1 =
        (filter_incentives_query rf2 limit offset order_by).2.1) ∧
    (∀ (rf : PyDict (Option (List String))) (limit offset : Int)
        (order_by : Option String),
      (filter_incentives_query rf limit offset order_by).2.2.2.2 =
        (dictKeys rf).filter (fun k => !(ALLOWED_FILTER_FIELDS.contains k))) ∧
    filter_incentives_query
        [("name", some ["Vision Workshop", "CRM Workshop"]),
         ("workload", some ["CRM", "ERP"]),
         ("incentive_type", some ["pre_sales"]),
         ("country", some ["United States"]), ("acv", some ["10000"])]
        25 0 (some "name") =
      ("SELECT * FROM incentives WHERE LOWER(name) IN (LOWER(%s), LOWER(%s))" ++
         " AND (workload ILIKE %s OR workload ILIKE %s)" ++
         " AND LOWER(incentive_type) IN (LOWER(%s)) ORDER BY name LIMIT %s OFFSET %s",
       ["Vision Workshop", "CRM Workshop", "%CRM%", "%ERP%", "pre_sales"],
       25, 0, ["country", "acv"]) := by
  refine ⟨?_, fun rf limit offset order_by => rfl, by decide⟩
  intro rf1 rf2 limit offset order_by hn hw hi
  have h1 : ∀ acc, prepStep rf1 acc ("name", "name") =
      prepStep rf2 acc ("name", "name") := by
    intro acc; unfold prepStep; rw [hn]
  have h2 : ∀ acc, prepStep rf1 acc ("workload", "workload") =
      prepStep rf2 acc ("workload", "workload") := by
    intro acc; unfold prepStep; rw [hw]
  have h3 : ∀ acc, prepStep rf1 acc ("incentive_type", "incentive_type") =
      prepStep rf2 acc ("incentive_type", "incentive_type") := by
    intro acc; unfold prepStep; rw [hi]
  constructor <;>
    simp only [filter_incentives_query, _prepare_filters, FIELD_TO_COLUMN,
      List.foldl, h1, h2, h3]

/-- Witness for C10 at concrete maps differing only in country/segment/acv:
the SQL and its parameters coincide. -/
theorem filter_query_allowed_fields_only_witness :
    (filter_incentives_query
        [("name", some ["Vision Workshop"]), ("country", some ["United States"]),
         ("acv", some ["10000"])] 25 0 (some "name")).1 =
      (filter_incentives_query
        [("name", some ["Vision Workshop"]), ("country", some ["France"]),
         ("segment", some ["enterprise"]), ("hours", some ["8"])] 25 0 (some "name")).1 ∧
    (filter_incentives_query
        [("name", some ["Vision Workshop"]), ("country", some ["United States"]),
         ("acv", some ["10000"])] 25 0 (some "name")).2.1 =
      (filter_incentives_query
        [("name", some ["Vision Workshop"]), ("country", some ["France"]),
         ("segment", some ["enterprise"]), ("hours", some ["8"])] 25 0 (some "name")).2.1 :=
  filter_query_allowed_fields_only.1
    [("name", some ["Vision Workshop"]), ("country", some ["United States"]),
     ("acv", some ["10000"])]
    [("name", some ["Vision Workshop"]), ("country", some ["France"]),
     ("segment", some ["enterprise"]), ("hours", some ["8"])]
    25 0 (some "name") (by decide) (by decide) (by decide)

/-! ## C8 — continuation heuristic
(`app/agents/continuation_agent.py::_quick_heuristic`) -/

/-- Python `str.lower()` (ASCII). -/
def pyLower (s : String) : String := String.mk (s.data.map Char.toLower)

/-- `s.replace("&", " and ")`. -/
def replaceAmp : List Char → List Char
  | [] => []
  | c :: rest =>
    if c = '&' then ' ' :: 'a' :: 'n' :: 'd' :: ' ' :: replaceAmp rest
    else c :: replaceAmp rest

/-- `re.sub(r"\s+", " ", s)`: collapse every whitespace run to one space
(`prevSpace` remembers whether the previous emitted char closed a run). -/
def collapseWsGo (prevSpace : Bool) : List Char → List Char
  | [] => []
  | c :: rest =>
    if pyIsSpace c then
      if prevSpace then collapseWsGo true rest
      else ' ' :: collapseWsGo true rest
    else c :: collapseWsGo false rest

/-- Embeds `continuation_agent.py::_clean_text`: lowercase, `&` to " and ",
whitespace collapsed, stripped. -/
def _clean_text (s : String) : String :=
  pyStrip (String.mk (collapseWsGo false (replaceAmp (pyLower s).data)))

/-- Is the first list a prefix of the second (char-exact). -/
def charsStartsWith : List Char → List Char → Bool
  | [], _ => true
  | _ :: _, [] => false
  | p :: ps, c :: cs => p = c && charsStartsWith ps cs

/-- Plain substring containment (Python `needle in hay`). -/
def containsSubstrGo (needle : List Char) : List Char → Bool
  | [] => charsStartsWith needle []
  | c :: rest => charsStartsWith needle (c :: rest) || containsSubstrGo needle rest

/-- `needle in hay` on strings. -/
def containsSubstr (needle hay : String) : Bool :=
  containsSubstrGo needle.data hay.data

/-- A regex word character (`\w`, ASCII). -/
def isWordChar (c : Char) : Bool := c.isAlphanum || c = '_'

/-- Worker for `containsWordPhrase`: try the phrase at every position,
remembering the previous character for the leading `\b`. -/
def containsWordPhraseGo (phrase : List Char) : Option Char → List Char → Bool
  | _, [] => false
  | prev, c :: rest =>
    ((match prev with
      | none => true
      | some p => !isWordChar p) &&
     charsStartsWith phrase (c :: rest) &&
     (match (c :: rest).drop phrase.length with
      | [] => true
      | d :: _ => !isWordChar d))
    || containsWordPhraseGo phrase (some c) rest

/-- `re.search` of a `\b`-delimited literal phrase (the shape of every
`_RESET_PATTERNS` entry once its alternation groups are expanded; each
phrase starts and ends with a word character, so `\b` means a non-word or
absent neighbour; `\bvs\.?\b` also reduces to the word-bounded literal
`vs`, since a following `.` already is a non-word boundary). -/
def containsWordPhrase (phrase msgClean : String) : Bool :=
  containsWordPhraseGo phrase.data none msgClean.data

/-- `continuation_agent.py::_RESET_PATTERNS`, alternations expanded to
literal word-bounded phrases. -/
def _RESET_PHRASES : List String :=
  ["new request", "new topic", "new question", "start over", "reset",
   "another engagement", "another workload", "another topic", "another customer",
   "different engagement", "different workload", "different topic",
   "different customer", "change workload", "change incentive", "change topic",
   "compare", "vs", "instead"]

/-- Does the cleaned message match any reset pattern. -/
def matchesReset (msgClean : String) : Bool :=
  _RESET_PHRASES.any (fun p => containsWordPhrase p msgClean)

/-- `continuation_agent.py::_ANAPHORA_HINTS`. -/
def _ANAPHORA_HINTS : List String :=
  ["this workshop", "that workshop", "the workshop", "the engagement",
   "above", "this", "that", "those", "it"]

/-- `continuation_agent.py::_DETAIL_HINTS`. -/
def _DETAIL_HINTS : List String :=
  ["more detail", "details", "qualification", "qualifications",
   "activity requirement", "requirements", "modules", "module", "goal", "goals",
   "acv", "msx", "tpid", "proof of execution", "market", "market band",
   "rate", "earning", "hours", "duration", "scope", "deliverable", "deliverables",
   "summary", "summarize", "what about", "how much", "what is", "what are",
   "can you"]

/-- `continuation_agent.py::_NAME_FAMILY_SYNS`. -/
def _NAME_FAMILY_SYNS : PyDict (List String) :=
  [("erp", ["erp", "finance", "fscm", "supply chain", "business central", "bc",
            "project operations", "commerce", "human resources", "hr"]),
   ("crm", ["crm", "customer engagement", "sales", "customer service",
            "field service", "contact center", "customer insights", "ci"])]

/-- Embeds `_mentions_family`: some synonym of the family occurs (cleaned,
substring) in the cleaned text. -/
def _mentions_family (text fam : String) : Bool :=
  ((dictGet _NAME_FAMILY_SYNS fam).getD []).any
    (fun kw => containsSubstr (_clean_text kw) (_clean_text text))

/-- Embeds `_family_in_names`: some synonym of the family occurs in the
`" || "`-joined cleaned result names. -/
def _family_in_names (fam : String) (names : List String) : Bool :=
  ((dictGet _NAME_FAMILY_SYNS fam).getD []).any
    (fun kw => containsSubstr (_clean_text kw) (_clean_text (joinSep " || " names)))

/-- Embeds `_mentions_different_family`. -/
def _mentions_different_family (msg : String) (lastNames : List String) : Bool :=
  (dictKeys _NAME_FAMILY_SYNS).any
    (fun fam => _mentions_family msg fam && !_family_in_names fam lastNames)

/-- Embeds `_result_names_summary` (cap 5): stripped non-empty row names in
order, stopping once five are collected. -/
def resultNamesGo (acc : List String) : List (Option String) → List String
  | [] => acc.reverse
  | r :: rest =>
    let acc2 :=
      match r with
      | some n => if pyTruthy (pyStrip n) then pyStrip n :: acc else acc
      | none => acc
    if acc2.length ≥ 5 then acc2.reverse else resultNamesGo acc2 rest

/-- `_result_names_summary(rows)`: rows are represented by their `name`
field (`None` when the row has none). -/
def _result_names_summary (rows : List (Option String)) : List String :=
  resultNamesGo [] rows

/-- Embeds `continuation_agent.py::_quick_heuristic`: `False` with no cached
result; `False` on a reset pattern; `False` on a family switch; `True` on an
anaphora or detail hint; otherwise `None` (defer to the classifier). -/
def _quick_heuristic (userMessage : String) (lastResult : List (Option String)) :
    Option Bool :=
  let msgClean := _clean_text userMessage
  let lastNames := _result_names_summary lastResult
  if lastResult = [] then some false
  else if matchesReset msgClean then some false
  else if _mentions_different_family userMessage lastNames then some false
  else if _ANAPHORA_HINTS.any (fun h => containsSubstr h msgClean) then some true
  else if _DETAIL_HINTS.any (fun h => containsSubstr h msgClean) then some true
  else none

/-- C8: whenever the message matches a reset-intent pattern the heuristic
returns `False`, regardless of any anaphora or detail hints also present
(the reset check runs first); and with no cached prior result it returns
`False` for every message. -/
theorem quick_heuristic_reset_short_circuits :
    (∀ (msg : String) (lastResult : List (Option String)),
      matchesReset (_clean_text msg) = true →
      _quick_heuristic msg lastResult = some false) ∧
    (∀ msg : String, _quick_heuristic msg [] = some false) := by
  constructor
  · intro msg lastResult h
    unfold _quick_heuristic
    by_cases he : lastResult = [] <;> simp [he, h]
  · intro msg
    unfold _quick_heuristic
    simp

/-- Witness for C8: the end-to-end scenario message "compare with CRM
instead" (which contains the anaphora substring "it" inside "with" and the
reset words "compare"/"instead") over a cached ERP result returns `False`;
any message over an empty cache returns `False`. -/
theorem quick_heuristic_reset_short_circuits_witness :
    _quick_heuristic "compare with CRM instead"
        [some "ERP Envisioning Workshop"] = some false ∧
    _quick_heuristic "what about the activity requirements" [] = some false :=
  ⟨quick_heuristic_reset_short_circuits.1 "compare with CRM instead"
      [some "ERP Envisioning Workshop"] (by decide),
   quick_heuristic_reset_short_circuits.2 "what about the activity requirements"⟩

/-! ## C7 — hours extraction
(`app/agents/field_value_resolver.py::_extract_hours_value` and
`app/agents/field_validator_v1.py::_extract_hours_value`).

Both files share the pattern `(?i)(\d+(?:\.\d+)?)\s*(h|hr|hrs|hour|hours)\b`
iterated with `finditer`.  The scan below is its deterministic reading: at a
match position the digit run, the optional fraction and the space run are
consumed greedily (shrinking any of them leaves a digit, a dot or a space in
front of the unit alternatives, which all start with a letter, so
backtracking those quantifiers can never succeed), then the five unit
alternatives are tried in the pattern's order, each guarded by the trailing
`\b`; on failure the start position advances one character, on success it
advances past the match (`finditer` is non-overlapping). -/

/-- Try the unit alternatives in order: case-insensitive literal prefix
followed by a word boundary; return the rest after the unit. -/
def ciPrefixDrop : List Char → List Char → Option (List Char)
  | [], cs => some cs
  | _ :: _, [] => none
  | t :: ts, c :: cs => if c.toLower = t then ciPrefixDrop ts cs else none

/-- The trailing `\b` after a unit (units end in a word character): next
character absent or non-word. -/
def unitBoundaryOk : List Char → Bool
  | [] => true
  | c :: _ => !isWordChar c

/-- The alternatives of `(h|hr|hrs|hour|hours)`, in the pattern's order. -/
def matchUnitTokens : List (List Char) :=
  [['h'], ['h', 'r'], ['h', 'r', 's'], ['h', 'o', 'u', 'r'],
   ['h', 'o', 'u', 'r', 's']]

/-- First alternative that matches with its boundary, as Python alternation
tries them left to right. -/
def matchUnitGo : List (List Char) → List Char → Option (List Char)
  | [], _ => none
  | t :: ts, cs =>
    match ciPrefixDrop t cs with
    | some rest => if unitBoundaryOk rest then some rest else matchUnitGo ts cs
    | none => matchUnitGo ts cs

def matchUnit (cs : List Char) : Option (List Char) :=
  matchUnitGo matchUnitTokens cs

/-- The optional fraction `(?:\.\d+)?` after the integer digits: returns
`(fraction-as-matched, rest)`. -/
def hoursTail (r1 : List Char) : List Char × List Char :=
  match r1 with
  | [] => ([], [])
  | c :: r =>
    if c = '.' then
      if (r.takeWhile Char.isDigit).isEmpty then ([], c :: r)
      else ('.' :: r.takeWhile Char.isDigit, r.dropWhile Char.isDigit)
    else ([], c :: r)

/-- One attempted match of the hours pattern at the head of `cs`: digits,
optional fraction, spaces, then a unit with boundary.  Returns group 1 (the
number) and the remainder after the match. -/
def matchHoursAt (cs : List Char) : Option (String × List Char) :=
  if (cs.takeWhile Char.isDigit).isEmpty then none
  else
    match matchUnit (((hoursTail (cs.dropWhile Char.isDigit)).2).dropWhile pyIsSpace) with
    | some rest =>
      some (String.mk (cs.takeWhile Char.isDigit ++
              (hoursTail (cs.dropWhile Char.isDigit)).1), rest)
    | none => none

theorem ciPrefixDrop_length (t cs rest : List Char)
    (h : ciPrefixDrop t cs = some rest) : rest.length + t.length = cs.length := by
  induction t generalizing cs with
  | nil => cases cs <;> simp_all [ciPrefixDrop]
  | cons a t ih =>
    cases cs with
    | nil => cases h
    | cons c cs =>
      simp only [ciPrefixDrop] at h
      split at h
      · have := ih cs h
        simp only [List.length_cons]
        omega
      · cases h

theorem ciPrefixDrop_head (a : Char) (t cs rest : List Char)
    (h : ciPrefixDrop (a :: t) cs = some rest) :
    ∃ c ∈ cs, c.toLower = a := by
  cases cs with
  | nil => cases h
  | cons c cs =>
    simp only [ciPrefixDrop] at h
    split at h
    · exact ⟨c, List.mem_cons_self c cs, by assumption⟩
    · cases h

theorem matchUnitGo_length (ts : List (List Char)) (cs rest : List Char)
    (hts : ∀ t ∈ ts, t ≠ []) (h : matchUnitGo ts cs = some rest) :
    rest.length < cs.length := by
  induction ts with
  | nil => cases h
  | cons t ts ih =>
    simp only [matchUnitGo] at h
    cases hp : ciPrefixDrop t cs with
    | none =>
      rw [hp] at h
      exact ih (fun u hu => hts u (List.mem_cons_of_mem t hu)) h
    | some r =>
      rw [hp] at h
      have h2 : (if unitBoundaryOk r = true then some r else matchUnitGo ts cs) =
          some rest := h
      by_cases hb : unitBoundaryOk r = true
      · rw [if_pos hb] at h2
        obtain rfl : r = rest := Option.some.inj h2
        have hlen := ciPrefixDrop_length t cs r hp
        have htne : t ≠ [] := hts t (List.mem_cons_self t ts)
        have : 0 < t.length := List.length_pos.mpr htne
        omega
      · rw [if_neg hb] at h2
        exact ih (fun u hu => hts u (List.mem_cons_of_mem t hu)) h2

theorem matchUnitGo_mem_h (ts : List (List Char)) (cs rest : List Char)
    (hts : ∀ t ∈ ts, ∃ u, t = 'h' :: u) (h : matchUnitGo ts cs = some rest) :
    ∃ c ∈ cs, c.toLower = 'h' := by
  induction ts with
  | nil => cases h
  | cons t ts ih =>
    simp only [matchUnitGo] at h
    cases hp : ciPrefixDrop t cs with
    | none =>
      rw [hp] at h
      exact ih (fun u hu => hts u (List.mem_cons_of_mem t hu)) h
    | some r =>
      rw [hp] at h
      have h2 : (if unitBoundaryOk r = true then some r else matchUnitGo ts cs) =
          some rest := h
      by_cases hb : unitBoundaryOk r = true
      · obtain ⟨u, hu⟩ := hts t (List.mem_cons_self t ts)
        subst hu
        exact ciPrefixDrop_head 'h' u cs r hp
      · rw [if_neg hb] at h2
        exact ih (fun u hu => hts u (List.mem_cons_of_mem t hu)) h2

theorem hoursTail_snd_sublist (r1 : List Char) : (hoursTail r1).2.Sublist r1 := by
  match r1 with
  | [] => exact List.Sublist.refl _
  | c :: r =>
    simp only [hoursTail]
    split
    · split
      · exact List.Sublist.refl _
      · exact List.Sublist.cons c (List.dropWhile_sublist _)
    · exact List.Sublist.refl _

theorem matchHoursAt_length (cs : List Char) (v : String) (rest : List Char)
    (h : matchHoursAt cs = some (v, rest)) : rest.length < cs.length := by
  unfold matchHoursAt at h
  split at h
  · cases h
  · rename_i hd
    cases hm : matchUnit (((hoursTail (cs.dropWhile Char.isDigit)).2).dropWhile pyIsSpace) with
    | none => rw [hm] at h; cases h
    | some r =>
      rw [hm] at h
      cases h
      have h1 : rest.length <
          (((hoursTail (cs.dropWhile Char.isDigit)).2).dropWhile pyIsSpace).length :=
        matchUnitGo_length matchUnitTokens _ rest (by decide) hm
      have h2 : (((hoursTail (cs.dropWhile Char.isDigit)).2).dropWhile pyIsSpace).length ≤
          ((hoursTail (cs.dropWhile Char.isDigit)).2).length :=
        (List.dropWhile_sublist _).length_le
      have h3 : ((hoursTail (cs.dropWhile Char.isDigit)).2).length ≤
          (cs.dropWhile Char.isDigit).length :=
        (hoursTail_snd_sublist _).length_le
      have h4 : (cs.dropWhile Char.isDigit).length ≤ cs.length :=
        (List.dropWhile_sublist _).length_le
      omega

/-- `matchHoursAt` can only succeed when the text still contains an `h` (or
`H`): every unit alternative starts with `h`. -/
theorem matchHoursAt_mem_h (cs : List Char) (v : String) (rest : List Char)
    (h : matchHoursAt cs = some (v, rest)) : ∃ c ∈ cs, c.toLower = 'h' := by
  unfold matchHoursAt at h
  split at h
  · cases h
  · cases hm : matchUnit (((hoursTail (cs.dropWhile Char.isDigit)).2).dropWhile pyIsSpace) with
    | none => rw [hm] at h; cases h
    | some r =>
      have htok : ∀ t ∈ matchUnitTokens, ∃ u, t = 'h' :: u := by
        intro t ht
        simp only [matchUnitTokens, List.mem_cons, List.not_mem_nil, or_false] at ht
        rcases ht with rfl | rfl | rfl | rfl | rfl
        · exact ⟨[], rfl⟩
        · exact ⟨['r'], rfl⟩
        · exact ⟨['r', 's'], rfl⟩
        · exact ⟨['o', 'u', 'r'], rfl⟩
        · exact ⟨['o', 'u', 'r', 's'], rfl⟩
      have hsub : (((hoursTail (cs.dropWhile Char.isDigit)).2).dropWhile pyIsSpace).Sublist cs :=
        (List.dropWhile_sublist _).trans
          ((hoursTail_snd_sublist _).trans (List.dropWhile_sublist _))
      obtain ⟨d, hd, hdl⟩ := matchUnitGo_mem_h matchUnitTokens _ r htok hm
      exact ⟨d, hsub.subset hd, hdl⟩

/-- The `finditer` scan: collect group 1 of every non-overlapping match of
the hours pattern, left to right; a failed position advances by one
character, a match advances past its end.  `fuel` bounds the number of scan
steps; every step consumes at least one character (`matchHoursAt_length`),
so `fuel = cs.length` suffices and the zero-fuel branch is unreachable
(`hoursScanGo_fuel_irrelevant`). -/
def hoursScanGo : Nat → List Char → List String
  | 0, _ => []
  | _ + 1, [] => []
  | fuel + 1, c :: cs =>
    match matchHoursAt (c :: cs) with
    | some (v, rest) => v :: hoursScanGo fuel rest
    | none => hoursScanGo fuel cs

/-- All hours matches of the text, in order. -/
def hoursScan (cs : List Char) : List String := hoursScanGo cs.length cs

theorem hoursScanGo_fuel_irrelevant :
    ∀ (f1 f2 : Nat) (cs : List Char), cs.length ≤ f1 → cs.length ≤ f2 →
      hoursScanGo f1 cs = hoursScanGo f2 cs := by
  intro f1
  induction f1 with
  | zero =>
    intro f2 cs h1 _
    have hcs : cs = [] := List.length_eq_zero.mp (Nat.le_zero.mp h1)
    subst hcs
    cases f2 <;> rfl
  | succ g1 ih =>
    intro f2 cs h1 h2
    cases cs with
    | nil => cases f2 <;> rfl
    | cons c cs' =>
      cases f2 with
      | zero => simp at h2
      | succ g2 =>
        simp only [hoursScanGo]
        cases hm : matchHoursAt (c :: cs') with
        | some pr =>
          obtain ⟨v, rest⟩ := pr
          have hlen : rest.length < (c :: cs').length :=
            matchHoursAt_length (c :: cs') v rest hm
          simp only [List.length_cons] at hlen h1 h2
          show v :: hoursScanGo g1 rest = v :: hoursScanGo g2 rest
          rw [ih g2 rest (by omega) (by omega)]
        | none =>
          simp only [List.length_cons] at h1 h2
          exact ih g2 cs' (by omega) (by omega)

theorem hoursScanGo_nil_of_no_h (fuel : Nat) :
    ∀ (cs : List Char), (∀ c ∈ cs, c.toLower ≠ 'h') → hoursScanGo fuel cs = [] := by
  induction fuel with
  | zero => intro cs _; rfl
  | succ g ih =>
    intro cs h
    cases cs with
    | nil => rfl
    | cons c cs' =>
      simp only [hoursScanGo]
      cases hm : matchHoursAt (c :: cs') with
      | some pr =>
        exfalso
        obtain ⟨v, rest⟩ := pr
        obtain ⟨d, hd, hdl⟩ := matchHoursAt_mem_h (c :: cs') v rest hm
        exact h d hd hdl
      | none => exact ih cs' (fun d hd => h d (List.mem_cons_of_mem c hd))

/-- Embeds `field_value_resolver.py::_extract_hours_value`: empty message
gives `None`; otherwise the *last* match's group 1, unnormalized, or `None`
when no unit-bearing number occurs. -/
def fvr_extract_hours_value (msg : String) : Option String :=
  if msg = "" then none else (hoursScan msg.data).getLast?

/-- Leading zeros dropped, at least one digit kept (the integer part of
Python `str(int(f))` for the short decimal tokens our scanners produce). -/
def canonIntDigits (ds : List Char) : List Char :=
  let t := ds.dropWhile (fun c => c = '0')
  if t.isEmpty then ['0'] else t

/-- The normalization `str(int(f)) if abs(f - round(f)) < 1e-9 else str(f)`
of `field_validator_v1.py::_extract_hours_value`, modelled on the decimal
token (digits with an optional fraction) instead of on binary floats: a
token is integral iff its fractional digits are all zero, which agrees with
the epsilon test for every token whose nonzero fraction is at least 1e-9,
and `str(f)` prints the shortest decimal, i.e. strips trailing fractional
zeros, for the short tokens in scope (exactly representable in a double). -/
def normalizeNumToken (s : String) : String :=
  let ip := s.data.takeWhile Char.isDigit
  let rest := s.data.dropWhile Char.isDigit
  let fp := match rest with
    | '.' :: r => r
    | _ => []
  if fp.all (fun c => c = '0') then String.mk (canonIntDigits ip)
  else String.mk (canonIntDigits ip ++
        '.' :: (fp.reverse.dropWhile (fun c => c = '0')).reverse)

/-- The bare-number fallback `re.search(r"(?<!\d)(\d{1,4}(?:\.\d+)?)(?!\d)",
msg)` of `field_validator_v1.py::_extract_hours_value`, read
deterministically: a match can only start where a digit run begins (inside a
run the lookbehind fails); taking fewer than the whole run leaves a digit
ahead, failing both the optional fraction and the lookahead, so a run
matches iff its length is at most 4, and the greedy fraction (all digits
after a dot) always satisfies the lookahead. -/
def bareNumSearch (prev : Option Char) : List Char → Option String
  | [] => none
  | c :: cs =>
    if (match prev with
        | some p => !p.isDigit
        | none => true) && c.isDigit then
      if (c :: cs.takeWhile Char.isDigit).length ≤ 4 then
        some (String.mk ((c :: cs.takeWhile Char.isDigit) ++
          (match cs.dropWhile Char.isDigit with
           | '.' :: r =>
             if (r.takeWhile Char.isDigit).isEmpty then []
             else '.' :: r.takeWhile Char.isDigit
           | _ => [])))
      else bareNumSearch (some c) cs
    else bareNumSearch (some c) cs

/-- Embeds `field_validator_v1.py::_extract_hours_value`: last unit-bearing
match, normalized; else the first bare 1-4 digit number, normalized; else
`None`. -/
def fv1_extract_hours_value (msg : String) : Option String :=
  if msg = "" then none
  else
    match (hoursScan msg.data).getLast? with
    | some last => some (normalizeNumToken last)
    | none =>
      match bareNumSearch none msg.data with
      | some s => some (normalizeNumToken s)
      | none => none

/-- C7 counterexample: `field_validator_v1`'s hours extractor resolves the
unit-less message "10" to "10" via its bare-number fallback — refuting "a
message with numbers but no unit token resolves hours to null". -/
theorem fv1_hours_bare_number_counterexample :
    fv1_extract_hours_value "10" = some "10" ∧
    fv1_extract_hours_value "10" ≠ none := by
  decide

/-- C7 amended: the single-field resolver's hours extractor
(`field_value_resolver`, used on follow-up turns) resolves hours only when
an explicit hour-unit token follows a number — any message without an
`h`/`H` anywhere yields null — and returns the last matched occurrence when
several appear; but `field_validator_v1`'s fresh-turn extractor falls back
to the first bare 1-4 digit number when no unit token is present. -/
theorem hours_unit_required_amended :
    (∀ msg : String, (∀ c ∈ msg.data, c.toLower ≠ 'h') →
      fvr_extract_hours_value msg = none) ∧
    fvr_extract_hours_value "worked 3h then 7.5 hours" = some "7.5" ∧
    fv1_extract_hours_value "deal size 1200" = some "1200" := by
  refine ⟨?_, by decide, by decide⟩
  intro msg h
  unfold fvr_extract_hours_value
  by_cases he : msg = ""
  · rw [if_pos he]
  · rw [if_neg he]
    unfold hoursScan
    rw [hoursScanGo_nil_of_no_h msg.data.length msg.data h]
    rfl

/-- Witness for C7 amended at a unit-less message with numbers. -/
theorem hours_unit_required_amended_witness :
    fvr_extract_hours_value "25 stairs and 10 dollars" = none :=
  hours_unit_required_amended.1 "25 stairs and 10 dollars" (by decide)

/-! ## C4 — ACV extraction
(`app/agents/field_value_resolver.py::_extract_acv_value`).

The Python source builds the regex pattern from four *adjacent string
literals*; adjacent literals concatenate at parse time, so the trailing
`.replace("{suf}", "")` applies to the whole concatenation.  The third
literal reads `\s*(?P{suf}suf|k|m|b|l|lac|lakh|cr|crore)?`; after the
replace the pattern contains `(?Psuf|`, and Python's regex parser rejects
every `(?P` not followed by `<`, `=` or `>` with
`re.error("unknown extension ?Ps")`.  `re.compile` therefore raises inside
the function for every message that passes the empty-message guard, and
`resolve_field_from_message("acv", ...)` has no handler around it.  The rest
of the body is unreachable and not modelled. -/

/-- Python `str.replace(needle, repl)` (non-overlapping, left to right);
`fuel` bounds the scan, one unit per consumed character, so the input
length suffices for a non-empty needle. -/
def replaceGo (needle repl : List Char) : Nat → List Char → List Char
  | 0, cs => cs
  | _ + 1, [] => []
  | fuel + 1, c :: cs =>
    if needle ≠ [] && charsStartsWith needle (c :: cs) then
      repl ++ replaceGo needle repl fuel ((c :: cs).drop needle.length)
    else c :: replaceGo needle repl fuel cs

/-- `s.replace(needle, repl)` on strings. -/
def pyReplace (s needle repl : String) : String :=
  String.mk (replaceGo needle.data repl.data s.data.length s.data)

/-- The four adjacent pattern literals of `_extract_acv_value`
(field_value_resolver), concatenated, then `.replace("{suf}", "")` applied
to the whole — exactly as the Python expression evaluates. -/
def acvPatternFVR : String :=
  pyReplace
    ("(?i)(?:[$₹€£]\\s*)?" ++
     "(?P<num>\\d\x7b1,3\x7d(?:[,\\s]?\\d\x7b2,3\x7d)+|\\d+(?:\\.\\d+)?)" ++
     "\\s*(?P\x7bsuf\x7dsuf|k|m|b|l|lac|lakh|cr|crore)?" ++
     "(?:\\s*(usd|inr|eur|gbp))?")
    "\x7bsuf\x7d" ""

/-- The slice of Python's regex parser that decides this bug: every
occurrence of `(?P` must be followed by `<` (named group), `=` (named
backreference) or `>`; anything else raises
`re.error("unknown extension ?P...")` at compile time.  (The pattern has no
`(?P` inside a character class, so the plain text scan is exact here.) -/
def pyGroupExtOkGo : List Char → Bool
  | '(' :: '?' :: 'P' :: c :: rest =>
    (c = '<' || c = '=' || c = '>') && pyGroupExtOkGo (c :: rest)
  | _ :: rest => pyGroupExtOkGo rest
  | [] => true

def pyGroupExtOk (s : String) : Bool := pyGroupExtOkGo s.data

/-- Embeds `field_value_resolver.py::_extract_acv_value`: the empty-message
guard returns `None`; otherwise `re.compile` runs on `acvPatternFVR` and
raises when the pattern is invalid.  The success branch (never reached, by
`acv_resolver_raises`) would return the parsed value. -/
def fvr_extract_acv_value (msg : String) : Except String (Option String) :=
  if msg = "" then .ok none
  else if pyGroupExtOk acvPatternFVR then .ok none
  else .error "re.error: unknown extension ?Ps"

set_option maxRecDepth 20000 in
/-- C4: the pattern `_extract_acv_value` compiles is rejected by Python's
regex parser, so resolving acv raises for every non-empty message — "10k"
does not yield "10000", it propagates `re.error` to the caller; only the
empty message returns `None` (before the compile). -/
theorem acv_resolver_raises :
    pyGroupExtOk acvPatternFVR = false ∧
    fvr_extract_acv_value "10k" = Except.error "re.error: unknown extension ?Ps" ∧
    fvr_extract_acv_value "" = Except.ok none :=
  ⟨by decide, by rfl, by rfl⟩

end BizAgent
